import Mathlib

/-!
# Verification of the issue-tracker document-store core

Shallow embedding of the Cosmos-backed issue tracker's document-store
access layer: JSON documents as association lists of field/value pairs,
containers as lists of documents, the repository primitives
(point read / create / replace / delete and the scoped SQL queries)
as pure Lean functions, and the Express route handlers as functions
from a store state and request data to a response and a new store state.

The embedding follows the latest iteration of `core/cosmos.js`
(the one exporting `Users`, `Projects`, `Issues`, `IssueComments`)
and the route files `auth.js`, `project.js`, the issue router and the
comment router.
-/

set_option linter.unusedVariables false

namespace IssueTracker

/-- A JSON value: string, number (timestamps are modelled as naturals),
or a nested flat object of string fields (used for the
`createdBy`/`lastUpdatedBy` audit stamps, which are `_.pick`s of the JWT
auth payload, whose fields are all strings). -/
inductive Value where
  | vStr : String → Value
  | vNat : Nat → Value
  | vObj : List (String × String) → Value
  deriving DecidableEq, Repr

/-- A JSON document: an association list of field names to values,
in insertion order (mirroring JS object key order). -/
abbrev Doc := List (String × Value)

/-- Field lookup: value of the first occurrence of key `k` (JS property read). -/
def Doc.get (d : Doc) (k : String) : Option Value :=
  (d.find? (fun p => p.1 == k)).map Prod.snd

/-- Field assignment (JS `d[k] = v`): overwrite the first occurrence of `k`
in place, or append the pair when the key is absent. -/
def Doc.set : Doc → String → Value → Doc
  | [], k, v => [(k, v)]
  | (k', v') :: rest, k, v =>
    if k' == k then (k, v) :: rest else (k', v') :: Doc.set rest k v

/-- Key list of a document. -/
def Doc.keys (d : Doc) : List String := d.map Prod.fst

/-- Read a field expected to hold a string. -/
def Doc.getStr (d : Doc) (k : String) : Option String :=
  match d.get k with
  | some (Value.vStr s) => some s
  | _ => none

/-- JS string coercion of a possibly-absent field (`undefined` prints as
`"undefined"` when concatenated). -/
def Doc.getStrD (d : Doc) (k : String) : String :=
  (d.getStr k).getD "undefined"

/-- Error classes surfaced by the Cosmos container operations. -/
inductive CosmosError where
  | conflict
  | notFound
  deriving DecidableEq, Repr

/-- A document is addressed by the point `(id, partitionKey)`: its `id` field
and the field at the container's partition-key path must both match. -/
def matchesPoint (pkPath id pk : String) (d : Doc) : Bool :=
  d.get "id" == some (Value.vStr id) && d.get pkPath == some (Value.vStr pk)

/-- `readItemFromContainer` (cosmos.js): point read by `(id, partitionKey)`;
the SDK returns the resource, or `undefined` (here `none`) when absent. -/
def readItemFromContainer (pkPath : String) (c : List Doc) (id pk : String) :
    Option Doc :=
  c.find? (matchesPoint pkPath id pk)

/-- `addItemToContainer` (cosmos.js): `container.items.create(newItem)` —
insert, failing with a Conflict-class error when a document with the same
`id` already exists in the same partition. Returns the updated container
state and the created resource. -/
def addItemToContainer (pkPath : String) (c : List Doc) (newItem : Doc) :
    Except CosmosError (List Doc × Doc) :=
  if c.any (fun d =>
      d.get "id" == newItem.get "id" && d.get pkPath == newItem.get pkPath)
  then Except.error CosmosError.conflict
  else Except.ok (c ++ [newItem], newItem)

/-- Overwrite the (first) document at point `(id, pk)` with `body`. -/
def replacePoint (pkPath id pk : String) (body : Doc) : List Doc → List Doc
  | [] => []
  | d :: rest =>
    if matchesPoint pkPath id pk d then body :: rest
    else d :: replacePoint pkPath id pk body rest

/-- `replaceItemInContainer` (cosmos.js): full-document point overwrite;
fails with a NotFound-class error when the point is absent. -/
def replaceItemInContainer (pkPath : String) (c : List Doc) (id pk : String)
    (body : Doc) : Except CosmosError (List Doc × Doc) :=
  if c.any (matchesPoint pkPath id pk)
  then Except.ok (replacePoint pkPath id pk body c, body)
  else Except.error CosmosError.notFound

/-- `removeItemFromContainer` (cosmos.js): point delete; fails with a
NotFound-class error when the point is absent. -/
def removeItemFromContainer (pkPath : String) (c : List Doc) (id pk : String) :
    Except CosmosError (List Doc) :=
  if c.any (matchesPoint pkPath id pk)
  then Except.ok (c.eraseP (matchesPoint pkPath id pk))
  else Except.error CosmosError.notFound

/-- The `createdOn` timestamp of a document (0 when absent / non-numeric),
the sort key of the issue/comment list queries. -/
def createdOnOf (d : Doc) : Nat :=
  match d.get "createdOn" with
  | some (Value.vNat n) => n
  | _ => 0

/-- `ORDER BY c.createdOn ASC`. -/
def createdAsc (d1 d2 : Doc) : Prop := createdOnOf d1 ≤ createdOnOf d2

/-- `ORDER BY c.createdOn DESC`. -/
def createdDesc (d1 d2 : Doc) : Prop := createdOnOf d2 ≤ createdOnOf d1

instance : DecidableRel createdAsc := fun d1 d2 => Nat.decLe _ _

instance : DecidableRel createdDesc := fun d1 d2 => Nat.decLe _ _

instance : IsTotal Doc createdAsc := ⟨fun a b => Nat.le_total _ _⟩

instance : IsTotal Doc createdDesc := ⟨fun a b => Nat.le_total _ _⟩

instance : IsTrans Doc createdAsc := ⟨fun _ _ _ => Nat.le_trans⟩

instance : IsTrans Doc createdDesc := ⟨fun _ _ _ h h' => Nat.le_trans h' h⟩

/-- `Issues.getAll` (cosmos.js, latest iteration):
`SELECT * FROM c WHERE c.type = @type ORDER BY c.createdOn DESC`
with `@type = 'Issue'`. -/
def issuesGetAll (c : List Doc) : List Doc :=
  List.insertionSort createdDesc
    (c.filter (fun d => d.get "type" == some (Value.vStr "Issue")))

/-- `Issues.getAllIssuesForProject` (cosmos.js, latest iteration):
`SELECT * FROM c WHERE c.projectId = @projectId AND c.type = @type
 ORDER BY c.createdOn DESC` with `@type = 'Issue'`. -/
def issuesGetAllForProject (c : List Doc) (projectId : String) : List Doc :=
  List.insertionSort createdDesc
    (c.filter (fun d =>
      d.get "projectId" == some (Value.vStr projectId) &&
      d.get "type" == some (Value.vStr "Issue")))

/-- `IssueComments.getAll` (cosmos.js):
`SELECT * FROM c WHERE c.type = @type ORDER BY c.createdOn ASC`
with `@type = 'Comment'`. -/
def commentsGetAll (c : List Doc) : List Doc :=
  List.insertionSort createdAsc
    (c.filter (fun d => d.get "type" == some (Value.vStr "Comment")))

/-- `IssueComments.getAllCommentsForIssue` (cosmos.js):
`SELECT * FROM c WHERE c.projectId = @projectId AND c.issueId = @issueId
 AND c.type = @type ORDER BY c.createdOn ASC` with `@type = 'Comment'`. -/
def getAllCommentsForIssue (c : List Doc) (projectId issueId : String) :
    List Doc :=
  List.insertionSort createdAsc
    (c.filter (fun d =>
      d.get "projectId" == some (Value.vStr projectId) &&
      d.get "issueId" == some (Value.vStr issueId) &&
      d.get "type" == some (Value.vStr "Comment")))

/-- `getUserByEmail` (cosmos.js):
`SELECT * FROM c WHERE c.email = @email`, returning `items[0]` or null.
The query parameter is the raw JS value. -/
def getUserByEmailVal (users : List Doc) (v : Value) : Option Doc :=
  (users.filter (fun d => d.get "email" == some v)).head?

/-- `Users.getByEmail` (cosmos.js) at a string email. -/
def usersGetByEmail (users : List Doc) (email : String) : Option Doc :=
  getUserByEmailVal users (Value.vStr email)

/-- The three container states: `Users` (pk `/userId`), `Projects`
(pk `/projectId`) and `Issues` (pk `/_partitionKey`, shared by Issue and
Comment documents). -/
structure Store where
  users : List Doc
  projects : List Doc
  issues : List Doc
  deriving DecidableEq, Repr

/-- `Users.getById` (cosmos.js): point read at `(userId, userId)`. -/
def usersGetById (users : List Doc) (userId : String) : Option Doc :=
  readItemFromContainer "userId" users userId userId

/-- `Users.add` (cosmos.js). -/
def usersAdd (users : List Doc) (newItem : Doc) :
    Except CosmosError (List Doc × Doc) :=
  addItemToContainer "userId" users newItem

/-- `Users.replace` (cosmos.js): full overwrite at `(userId, userId)`. -/
def usersReplace (users : List Doc) (userId : String) (userData : Doc) :
    Except CosmosError (List Doc × Doc) :=
  replaceItemInContainer "userId" users userId userId userData

/-- `Projects.getById` (cosmos.js): point read at `(projectId, projectId)`. -/
def projectsGetById (projects : List Doc) (projectId : String) : Option Doc :=
  readItemFromContainer "projectId" projects projectId projectId

/-- `Projects.add` (cosmos.js). -/
def projectsAdd (projects : List Doc) (newItem : Doc) :
    Except CosmosError (List Doc × Doc) :=
  addItemToContainer "projectId" projects newItem

/-- `Projects.replace` (cosmos.js). -/
def projectsReplace (projects : List Doc) (projectId : String)
    (projectData : Doc) : Except CosmosError (List Doc × Doc) :=
  replaceItemInContainer "projectId" projects projectId projectId projectData

/-- `Projects.remove` (cosmos.js). -/
def projectsRemove (projects : List Doc) (projectId : String) :
    Except CosmosError (List Doc) :=
  removeItemFromContainer "projectId" projects projectId projectId

/-- `Issues.getById` (cosmos.js): point read at
`(issueId, projectId + ";" + issueId)`. -/
def issuesGetById (issues : List Doc) (projectId issueId : String) :
    Option Doc :=
  readItemFromContainer "_partitionKey" issues issueId
    (projectId ++ ";" ++ issueId)

/-- `Issues.add` (cosmos.js, latest iteration): stamps
`newItem._partitionKey = newItem.projectId + ';' + newItem.issueId` and
`newItem.type = 'Issue'` before the container insert. -/
def issuesAdd (issues : List Doc) (newItem : Doc) :
    Except CosmosError (List Doc × Doc) :=
  let item :=
    (newItem.set "_partitionKey"
      (Value.vStr (newItem.getStrD "projectId" ++ ";" ++
        newItem.getStrD "issueId"))).set "type" (Value.vStr "Issue")
  addItemToContainer "_partitionKey" issues item

/-- `IssueComments.add` (cosmos.js): stamps
`newItem._partitionKey = newItem.projectId + ';' + newItem.issueId` and
`newItem.type = 'Comment'` before inserting into the same Issues
container. -/
def commentsAdd (issues : List Doc) (newItem : Doc) :
    Except CosmosError (List Doc × Doc) :=
  let item :=
    (newItem.set "_partitionKey"
      (Value.vStr (newItem.getStrD "projectId" ++ ";" ++
        newItem.getStrD "issueId"))).set "type" (Value.vStr "Comment")
  addItemToContainer "_partitionKey" issues item

/-- `Issues.replace` (cosmos.js): full overwrite at
`(issueId, projectId + ";" + issueId)`. -/
def issuesReplace (issues : List Doc) (projectId issueId : String)
    (issueData : Doc) : Except CosmosError (List Doc × Doc) :=
  replaceItemInContainer "_partitionKey" issues issueId
    (projectId ++ ";" ++ issueId) issueData

/-- `Issues.remove` (cosmos.js). -/
def issuesRemove (issues : List Doc) (projectId issueId : String) :
    Except CosmosError (List Doc) :=
  removeItemFromContainer "_partitionKey" issues issueId
    (projectId ++ ";" ++ issueId)

/-- The JWT auth payload (`req.auth`): flat string fields
(`userId`, `email`, `givenName`, `familyName`). -/
abbrev AuthPayload := List (String × String)

/-- lodash `_.pick` over the flat auth payload: keeps the named keys that
exist, in the order the keys are listed. -/
def pickPairs (d : AuthPayload) (ks : List String) : List (String × String) :=
  ks.filterMap (fun k =>
    ((d.find? (fun p => p.1 == k)).map Prod.snd).map (fun v => (k, v)))

/-- lodash `_.pick` over a document: keeps the named fields that exist,
in the order the keys are listed. -/
def pickDoc (d : Doc) (ks : List String) : Doc :=
  ks.filterMap (fun k => (d.get k).map (fun v => (k, v)))

/-- An HTTP response: status, flat JSON body, and (when the route echoes a
stored document) the nested `resource` member of the body. -/
structure HttpResponse where
  status : Nat
  body : Doc
  resource : Option Doc := none
  deriving DecidableEq, Repr

/-- The JS merge loop `for (const key in data) { doc[key] = data[key]; }`:
fold the update object's fields into the stored document, in key order. -/
def mergeDoc (doc body : Doc) : Doc :=
  body.foldl (fun d kv => d.set kv.1 kv.2) doc

/-- `POST /auth/register` (auth.js, latest iteration): look the email up
first; refuse with 400 when a user already holds it, otherwise build and
insert the new User document. `userId` is the generated nanoid;
`passwordHash` is the bcrypt output and `token`/`tokenExpiresIn` come from
the external token layer. -/
def registerRoute (store : Store)
    (userId givenName familyName email passwordHash : String) (now : Nat)
    (token tokenExpiresIn : String) : HttpResponse × Store :=
  match usersGetByEmail store.users email with
  | some _ =>
    ({ status := 400,
       body := [("message", Value.vStr "Email already in use."),
                ("email", Value.vStr email)] }, store)
  | none =>
    let newUser : Doc :=
      [("id", Value.vStr userId), ("userId", Value.vStr userId),
       ("givenName", Value.vStr givenName),
       ("familyName", Value.vStr familyName),
       ("email", Value.vStr email),
       ("passwordHash", Value.vStr passwordHash),
       ("type", Value.vStr "User"),
       ("registeredOn", Value.vNat now), ("lastLoginOn", Value.vNat now)]
    match usersAdd store.users newUser with
    | Except.error _ =>
      ({ status := 500, body := [("message", Value.vStr "Server error.")] },
       store)
    | Except.ok (users', _) =>
      ({ status := 200,
         body := [("message", Value.vStr "User registered."),
                  ("userId", Value.vStr userId),
                  ("email", Value.vStr email),
                  ("token", Value.vStr token),
                  ("tokenExpiresIn", Value.vStr tokenExpiresIn)] },
       { store with users := users' })

/-- `PUT /project/:projectId/issue/new` (issue router): point-read the
parent Project; 404 when absent, otherwise stamp identity and audit fields
onto the validated body and insert through `Issues.add`. `issueId` is the
generated nanoid. -/
def issueNewRoute (store : Store) (auth : AuthPayload)
    (projectId issueId : String) (now : Nat) (body : Doc) :
    HttpResponse × Store :=
  match projectsGetById store.projects projectId with
  | none =>
    ({ status := 404,
       body := [("message", Value.vStr "Project not found."),
                ("projectId", Value.vStr projectId)] }, store)
  | some _ =>
    let newIssue :=
      (((((body.set "id" (Value.vStr issueId)).set
        "issueId" (Value.vStr issueId)).set
        "projectId" (Value.vStr projectId)).set
        "type" (Value.vStr "Issue")).set
        "createdOn" (Value.vNat now)).set
        "createdBy" (Value.vObj (pickPairs auth ["userId", "email"]))
    match issuesAdd store.issues newIssue with
    | Except.error _ =>
      ({ status := 500, body := [("message", Value.vStr "Server error.")] },
       store)
    | Except.ok (issues', resource) =>
      ({ status := 200,
         body := [("message", Value.vStr "Issue created."),
                  ("id", Value.vStr issueId)],
         resource := some resource },
       { store with issues := issues' })

/-- The document written by `PUT /project/:projectId/issue/:issueId`:
merge the update body over the stored Issue, then stamp
`lastUpdatedOn`/`lastUpdatedBy`. -/
def issueUpdateDoc (issue : Doc) (auth : AuthPayload) (now : Nat)
    (body : Doc) : Doc :=
  ((mergeDoc issue body).set "lastUpdatedOn" (Value.vNat now)).set
    "lastUpdatedBy" (Value.vObj (pickPairs auth ["userId", "email"]))

/-- `PUT /project/:projectId/issue/:issueId` (issue router): read the
Issue at the composite key; 404 when absent, otherwise merge, stamp and
full-replace. -/
def issueUpdateRoute (store : Store) (auth : AuthPayload)
    (projectId issueId : String) (now : Nat) (body : Doc) :
    HttpResponse × Store :=
  match issuesGetById store.issues projectId issueId with
  | none =>
    ({ status := 404,
       body := [("message", Value.vStr "Issue not found."),
                ("id", Value.vStr issueId)] }, store)
  | some issue =>
    let updated := issueUpdateDoc issue auth now body
    match issuesReplace store.issues projectId issueId updated with
    | Except.error _ =>
      ({ status := 500, body := [("message", Value.vStr "Server error.")] },
       store)
    | Except.ok (issues', resource) =>
      ({ status := 200,
         body := [("message", Value.vStr "Issue updated."),
                  ("id", Value.vStr issueId)],
         resource := some resource },
       { store with issues := issues' })

/-- The document written by `PUT /project/:projectId` (project.js):
merge the update body over the stored Project, then stamp
`lastUpdatedOn`/`lastUpdatedBy`. -/
def projectUpdateDoc (project : Doc) (auth : AuthPayload) (now : Nat)
    (body : Doc) : Doc :=
  ((mergeDoc project body).set "lastUpdatedOn" (Value.vNat now)).set
    "lastUpdatedBy" (Value.vObj (pickPairs auth ["userId", "email"]))

/-- `PUT /project/:projectId` (project.js): read the Project; 404 when
absent, otherwise merge, stamp and full-replace. -/
def projectUpdateRoute (store : Store) (auth : AuthPayload)
    (projectId : String) (now : Nat) (body : Doc) : HttpResponse × Store :=
  match projectsGetById store.projects projectId with
  | none =>
    ({ status := 404,
       body := [("message", Value.vStr "Project not found."),
                ("id", Value.vStr projectId)] }, store)
  | some project =>
    let updated := projectUpdateDoc project auth now body
    match projectsReplace store.projects projectId updated with
    | Except.error _ =>
      ({ status := 500, body := [("message", Value.vStr "Server error.")] },
       store)
    | Except.ok (projects', resource) =>
      ({ status := 200,
         body := [("message", Value.vStr "Project updated."),
                  ("id", Value.vStr projectId)],
         resource := some resource },
       { store with projects := projects' })

/-- `DELETE /project/:projectId` (project.js): read the Project; 404 when
absent, otherwise point-delete it. -/
def projectDeleteRoute (store : Store) (projectId : String) :
    HttpResponse × Store :=
  match projectsGetById store.projects projectId with
  | none =>
    ({ status := 404,
       body := [("message", Value.vStr "Project not found."),
                ("id", Value.vStr projectId)] }, store)
  | some _ =>
    match projectsRemove store.projects projectId with
    | Except.error _ =>
      ({ status := 500, body := [("message", Value.vStr "Server error.")] },
       store)
    | Except.ok projects' =>
      ({ status := 200,
         body := [("message", Value.vStr "Project removed."),
                  ("id", Value.vStr projectId)] },
       { store with projects := projects' })

/-- `PUT /project/:projectId/issue/:issueId/comment/new` (comment router):
point-read the parent Issue; 404 when absent, otherwise stamp identity and
audit fields onto the validated body and insert through
`IssueComments.add`. The response's top-level `id` is set to `issueId`
(the code echoes the route parameter, not the generated comment id). -/
def commentNewRoute (store : Store) (auth : AuthPayload)
    (projectId issueId commentId : String) (now : Nat) (body : Doc) :
    HttpResponse × Store :=
  match issuesGetById store.issues projectId issueId with
  | none =>
    ({ status := 404,
       body := [("message", Value.vStr "Issue not found."),
                ("issueId", Value.vStr issueId)] }, store)
  | some _ =>
    let newComment :=
      (((((body.set "id" (Value.vStr commentId)).set
        "issueId" (Value.vStr issueId)).set
        "projectId" (Value.vStr projectId)).set
        "type" (Value.vStr "Comment")).set
        "createdOn" (Value.vNat now)).set
        "createdBy" (Value.vObj (pickPairs auth ["userId", "email"]))
    match commentsAdd store.issues newComment with
    | Except.error _ =>
      ({ status := 500, body := [("message", Value.vStr "Server error.")] },
       store)
    | Except.ok (issues', resource) =>
      ({ status := 200,
         body := [("message", Value.vStr "Comment created."),
                  ("id", Value.vStr issueId)],
         resource := some resource },
       { store with issues := issues' })

/-- `GET /auth/me` (auth.js, first iteration): 404 when the user is
absent, otherwise `_.pick(user, 'userId', 'email', 'givenName',
'familyName')`. -/
def authMeGetV1 (users : List Doc) (userId : String) : HttpResponse :=
  match usersGetById users userId with
  | none =>
    { status := 404,
      body := [("message", Value.vStr "User not found."),
               ("userId", Value.vStr userId)] }
  | some user =>
    { status := 200,
      body := pickDoc user ["userId", "email", "givenName", "familyName"] }

/-- `GET /auth/me` (auth.js, latest iteration): adds `registeredOn` and
`lastLoginOn` to the picked field set. -/
def authMeGetV2 (users : List Doc) (userId : String) : HttpResponse :=
  match usersGetById users userId with
  | none =>
    { status := 404,
      body := [("message", Value.vStr "User not found."),
               ("userId", Value.vStr userId)] }
  | some user =>
    { status := 200,
      body := pickDoc user ["userId", "email", "givenName", "familyName",
        "registeredOn", "lastLoginOn"] }

/-- The keys `updateSchema` (auth.js) declares. The `email` line of the
schema is commented out in the source, so `email` is not among them. -/
def updateSchemaKeys : List String := ["givenName", "familyName", "password"]

/-- The `validBody(updateSchema)` gate on `PUT /auth/me`: Joi rejects
bodies with keys outside the schema and non-string values. (Joi's
trimming and the password minimum length are stricter checks that no
claim depends on.) -/
def validUpdateBody (body : Doc) : Bool :=
  body.keys.all (fun k => updateSchemaKeys.contains k) &&
  body.all (fun kv =>
    match kv.2 with
    | Value.vStr _ => true
    | _ => false)

/-- bcrypt applied to the submitted password value; the schema only lets
string values through, so the fall-through branch is unreachable in
validated requests. -/
def hashVal (hashFn : String → String) : Value → Value
  | Value.vStr s => Value.vStr (hashFn s)
  | v => v

/-- The merge loop of `PUT /auth/me` (auth.js):
`for (const key in userData)` — `password` is hashed into `passwordHash`;
a changed `email` is re-checked for uniqueness against the new value and
refused with 400 when another user (a user whose `id` differs from the
requester's) holds it; any other key is copied over. The early `return`
on conflict abandons the whole update. -/
def applyUserUpdate (users : List Doc) (userId : String)
    (hashFn : String → String) :
    Doc → List (String × Value) → Except HttpResponse Doc
  | user, [] => Except.ok user
  | user, (k, v) :: rest =>
    if k == "password" then
      applyUserUpdate users userId hashFn
        (user.set "passwordHash" (hashVal hashFn v)) rest
    else if k == "email" then
      if some v ≠ user.get "email" then
        match getUserByEmailVal users v with
        | some existingUser =>
          if existingUser.get "id" ≠ some (Value.vStr userId) then
            Except.error
              { status := 400,
                body := [("message", Value.vStr "Email already in use."),
                         ("email", v)] }
          else applyUserUpdate users userId hashFn (user.set "email" v) rest
        | none => applyUserUpdate users userId hashFn (user.set "email" v) rest
      else applyUserUpdate users userId hashFn user rest
    else applyUserUpdate users userId hashFn (user.set k v) rest

/-- The `PUT /auth/me` handler body (after `validBody` has accepted the
request): read the user, run the merge loop, and full-replace the user
document. A JSON field whose value is `undefined` is omitted from the
serialized body, hence the conditional `email` entry. -/
def authMePutHandler (users : List Doc) (userId : String)
    (hashFn : String → String) (body : Doc) (token tokenExpiresIn : String) :
    HttpResponse × List Doc :=
  match usersGetById users userId with
  | none =>
    ({ status := 404,
       body := [("message", Value.vStr "User not found."),
                ("userId", Value.vStr userId)] }, users)
  | some user =>
    match applyUserUpdate users userId hashFn user body with
    | Except.error resp => (resp, users)
    | Except.ok user' =>
      match usersReplace users userId user' with
      | Except.error _ =>
        ({ status := 500, body := [("message", Value.vStr "Server error.")] },
         users)
      | Except.ok (users', resource) =>
        ({ status := 200,
           body := [("message", Value.vStr "User updated."),
                    ("userId", Value.vStr userId)] ++
             (match resource.get "email" with
              | some v => [("email", v)]
              | none => []) ++
             [("token", Value.vStr token),
              ("tokenExpiresIn", Value.vStr tokenExpiresIn)] },
         users')

/-- `PUT /auth/me` end to end: the `validBody(updateSchema)` gate rejects
the request with 400 before the handler runs when the body does not match
the schema. -/
def authMePutRoute (users : List Doc) (userId : String)
    (hashFn : String → String) (body : Doc) (token tokenExpiresIn : String) :
    HttpResponse × List Doc :=
  if validUpdateBody body then
    authMePutHandler users userId hashFn body token tokenExpiresIn
  else
    ({ status := 400,
       body := [("message", Value.vStr "Validation failed.")] }, users)

/-- Number of stored User documents holding a given email. -/
def countUsersWithEmail (users : List Doc) (e : String) : Nat :=
  (users.filter (fun d => d.get "email" == some (Value.vStr e))).length

/-! ## Basic lemmas about documents -/

theorem Doc.get_nil (k : String) : Doc.get [] k = none := rfl

theorem Doc.get_cons (k1 : String) (v1 : Value) (rest : Doc) (k : String) :
    Doc.get ((k1, v1) :: rest) k =
      if k1 = k then some v1 else Doc.get rest k := by
  by_cases h : k1 = k
  · simp [Doc.get, h]
  · simp [Doc.get, h]

theorem Doc.set_nil (k : String) (v : Value) :
    Doc.set [] k v = [(k, v)] := rfl

theorem Doc.set_cons (k1 : String) (v1 : Value) (rest : Doc) (k : String)
    (v : Value) :
    Doc.set ((k1, v1) :: rest) k v =
      if k1 = k then (k, v) :: rest else (k1, v1) :: Doc.set rest k v := by
  by_cases h : k1 = k <;> simp [Doc.set, h]

theorem Doc.get_set_self (d : Doc) (k : String) (v : Value) :
    (d.set k v).get k = some v := by
  induction d with
  | nil => simp [Doc.set_nil, Doc.get_cons]
  | cons a rest ih =>
    obtain ⟨k1, v1⟩ := a
    by_cases h : k1 = k
    · simp [Doc.set_cons, Doc.get_cons, h]
    · simp [Doc.set_cons, Doc.get_cons, h, ih]

theorem Doc.get_set_ne (d : Doc) (k k' : String) (v : Value) (h : k' ≠ k) :
    (d.set k v).get k' = d.get k' := by
  induction d with
  | nil => simp [Doc.set_nil, Doc.get_cons, Doc.get_nil, Ne.symm h]
  | cons a rest ih =>
    obtain ⟨k1, v1⟩ := a
    by_cases ha : k1 = k
    · subst ha
      simp [Doc.set_cons, Doc.get_cons, Ne.symm h]
    · simp [Doc.set_cons, Doc.get_cons, ha, ih]

theorem Doc.keys_nil : Doc.keys [] = [] := rfl

theorem Doc.keys_cons (k1 : String) (v1 : Value) (rest : Doc) :
    Doc.keys ((k1, v1) :: rest) = k1 :: Doc.keys rest := rfl

theorem mergeDoc_nil (doc : Doc) : mergeDoc doc [] = doc := rfl

theorem mergeDoc_cons (doc : Doc) (k : String) (v : Value)
    (rest : List (String × Value)) :
    mergeDoc doc ((k, v) :: rest) = mergeDoc (doc.set k v) rest := rfl

/-- A key not present in the update body keeps its previously stored
value through the merge loop. -/
theorem mergeDoc_get_not_mem (body : List (String × Value)) (doc : Doc)
    (k : String) (h : k ∉ Doc.keys body) :
    (mergeDoc doc body).get k = doc.get k := by
  induction body generalizing doc with
  | nil => rfl
  | cons a rest ih =>
    obtain ⟨k1, v1⟩ := a
    rw [Doc.keys_cons, List.mem_cons, not_or] at h
    calc (mergeDoc doc ((k1, v1) :: rest)).get k
        = (mergeDoc (doc.set k1 v1) rest).get k := rfl
      _ = (doc.set k1 v1).get k := ih _ h.2
      _ = doc.get k := Doc.get_set_ne _ _ _ _ h.1

/-- A key present in the (duplicate-free) update body ends up with the
body's value through the merge loop. -/
theorem mergeDoc_get_mem (body : List (String × Value)) (doc : Doc)
    (k : String) (hnd : (Doc.keys body).Nodup) (h : k ∈ Doc.keys body) :
    (mergeDoc doc body).get k = Doc.get body k := by
  induction body generalizing doc with
  | nil => simp [Doc.keys] at h
  | cons a rest ih =>
    obtain ⟨k1, v1⟩ := a
    rw [Doc.keys_cons, List.nodup_cons] at hnd
    rw [Doc.keys_cons, List.mem_cons] at h
    have hnd' : (Doc.keys rest).Nodup := hnd.2
    by_cases hk : k1 = k
    · have hnot : k1 ∉ Doc.keys rest := hnd.1
      subst hk
      calc (mergeDoc doc ((k1, v1) :: rest)).get k1
          = (mergeDoc (doc.set k1 v1) rest).get k1 := rfl
        _ = (doc.set k1 v1).get k1 := mergeDoc_get_not_mem _ _ _ hnot
        _ = some v1 := Doc.get_set_self _ _ _
        _ = Doc.get ((k1, v1) :: rest) k1 := by simp [Doc.get_cons]
    · have hmem : k ∈ Doc.keys rest := by
        rcases h with h' | h'
        · exact absurd h'.symm hk
        · exact h'
      calc (mergeDoc doc ((k1, v1) :: rest)).get k
          = (mergeDoc (doc.set k1 v1) rest).get k := rfl
        _ = Doc.get rest k := ih _ hnd' hmem
        _ = Doc.get ((k1, v1) :: rest) k := by simp [Doc.get_cons, hk]

/-! ## Lemmas about the container primitives -/

theorem addItemToContainer_ok (pkPath : String) (c : List Doc) (item : Doc)
    (c' : List Doc) (res : Doc)
    (h : addItemToContainer pkPath c item = Except.ok (c', res)) :
    c' = c ++ [item] ∧ res = item := by
  unfold addItemToContainer at h
  split at h
  · cases h
  · simp only [Except.ok.injEq, Prod.mk.injEq] at h
    exact ⟨h.1.symm, h.2.symm⟩

theorem replaceItemInContainer_ok (pkPath : String) (c : List Doc)
    (id pk : String) (body : Doc) (c' : List Doc) (res : Doc)
    (h : replaceItemInContainer pkPath c id pk body = Except.ok (c', res)) :
    c' = replacePoint pkPath id pk body c ∧ res = body := by
  unfold replaceItemInContainer at h
  split at h
  · simp only [Except.ok.injEq, Prod.mk.injEq] at h
    exact ⟨h.1.symm, h.2.symm⟩
  · cases h

/-- A successful point read returns a stored document whose `id` and
partition-key fields match the requested point. -/
theorem readItemFromContainer_some (pkPath : String) (c : List Doc)
    (id pk : String) (d : Doc)
    (h : readItemFromContainer pkPath c id pk = some d) :
    d ∈ c ∧ d.get "id" = some (Value.vStr id) ∧
      d.get pkPath = some (Value.vStr pk) := by
  have hmem := List.mem_of_find?_eq_some h
  have hp := List.find?_some h
  simp only [matchesPoint, Bool.and_eq_true, beq_iff_eq] at hp
  exact ⟨hmem, hp.1, hp.2⟩

/-! ## C1: partition-key scheme -/

/-- **C1**: every Issue written through `Issues.add` is stored with
`_partitionKey = projectId + ";" + issueId`; every Comment written through
`IssueComments.add` is stored with the same composite `_partitionKey`; and
through the comment-create route, the stored Comment's `_partitionKey`
equals its parent Issue's `_partitionKey`. -/
theorem partitionKey_scheme (issues : List Doc) (item : Doc)
    (pid iid : String)
    (hp : item.getStr "projectId" = some pid)
    (hi : item.getStr "issueId" = some iid) :
    (∀ issues' res, issuesAdd issues item = Except.ok (issues', res) →
      res ∈ issues' ∧
      res.get "_partitionKey" = some (Value.vStr (pid ++ ";" ++ iid))) ∧
    (∀ issues' res, commentsAdd issues item = Except.ok (issues', res) →
      res ∈ issues' ∧
      res.get "_partitionKey" = some (Value.vStr (pid ++ ";" ++ iid))) ∧
    (∀ (store : Store) (auth : AuthPayload) (cid : String) (now : Nat)
      (body : Doc) (parent : Doc) (resp : HttpResponse) (store' : Store),
      issuesGetById store.issues pid iid = some parent →
      commentNewRoute store auth pid iid cid now body = (resp, store') →
      ∀ res, resp.resource = some res →
        parent.get "_partitionKey" = some (Value.vStr (pid ++ ";" ++ iid)) ∧
        res.get "_partitionKey" = parent.get "_partitionKey") := by
  refine ⟨?_, ?_, ?_⟩
  · intro issues' res h
    obtain ⟨hc, hres⟩ := addItemToContainer_ok _ _ _ _ _ h
    subst hc hres
    constructor
    · exact List.mem_append_right _ (List.mem_singleton.mpr rfl)
    · simp [Doc.get_set_ne, Doc.get_set_self, Doc.getStrD, hp, hi]
  · intro issues' res h
    obtain ⟨hc, hres⟩ := addItemToContainer_ok _ _ _ _ _ h
    subst hc hres
    constructor
    · exact List.mem_append_right _ (List.mem_singleton.mpr rfl)
    · simp [Doc.get_set_ne, Doc.get_set_self, Doc.getStrD, hp, hi]
  · intro store auth cid now body parent resp store' hfound hroute res hres
    have hparent :=
      (readItemFromContainer_some "_partitionKey" store.issues iid
        (pid ++ ";" ++ iid) parent hfound).2.2
    refine ⟨hparent, ?_⟩
    unfold commentNewRoute at hroute
    rw [hfound] at hroute
    dsimp only at hroute
    cases hadd : commentsAdd store.issues
        ((((((body.set "id" (Value.vStr cid)).set
          "issueId" (Value.vStr iid)).set
          "projectId" (Value.vStr pid)).set
          "type" (Value.vStr "Comment")).set
          "createdOn" (Value.vNat now)).set
          "createdBy" (Value.vObj (pickPairs auth ["userId", "email"]))) with
    | error e =>
      rw [hadd] at hroute
      dsimp only at hroute
      injection hroute with h1 h2
      rw [← h1] at hres
      simp at hres
    | ok p =>
      obtain ⟨issues', stored⟩ := p
      rw [hadd] at hroute
      dsimp only at hroute
      injection hroute with h1 h2
      rw [← h1] at hres
      simp only [Option.some.injEq] at hres
      subst hres
      obtain ⟨_, hstored⟩ := addItemToContainer_ok _ _ _ _ _ hadd
      subst hstored
      rw [hparent]
      simp [Doc.get_set_ne, Doc.get_set_self, Doc.getStrD, Doc.getStr]

/-- Membership in a sorted filter result. -/
theorem mem_sort_filter (r : Doc → Doc → Prop) [DecidableRel r]
    (p : Doc → Bool) (c : List Doc) (d : Doc) :
    d ∈ List.insertionSort r (c.filter p) ↔ d ∈ c ∧ p d = true := by
  rw [(List.perm_insertionSort r _).mem_iff, List.mem_filter]

/-! ## C7: point reads return null when absent -/

/-- **C7**: a point read addressing no stored document returns `none`
rather than raising an error; a point read addressing a stored document
(unique at its point, as the store enforces id-uniqueness within a
partition) returns that document. -/
theorem getById_point_read (pkPath : String) (c : List Doc)
    (id pk : String) :
    ((∀ d ∈ c, ¬(matchesPoint pkPath id pk d = true)) →
      readItemFromContainer pkPath c id pk = none) ∧
    (∀ d ∈ c, matchesPoint pkPath id pk d = true →
      (∀ d' ∈ c, matchesPoint pkPath id pk d' = true → d' = d) →
      readItemFromContainer pkPath c id pk = some d) := by
  constructor
  · intro h
    exact List.find?_eq_none.mpr h
  · intro d hd hmatch huniq
    cases hfind : readItemFromContainer pkPath c id pk with
    | none => exact absurd hmatch (List.find?_eq_none.mp hfind d hd)
    | some d' =>
      rw [huniq d' (List.mem_of_find?_eq_some hfind) (List.find?_some hfind)]

/-- Witness for C7 at concrete inputs: the empty container reads `none`,
a singleton container reads its document. -/
theorem getById_point_read_witness :
    readItemFromContainer "userId" [] "x" "x" = none ∧
    readItemFromContainer "userId"
      [[("id", Value.vStr "x"), ("userId", Value.vStr "x")]] "x" "x"
      = some [("id", Value.vStr "x"), ("userId", Value.vStr "x")] := by
  constructor
  · exact (getById_point_read "userId" [] "x" "x").1 (by simp)
  · exact (getById_point_read "userId"
      [[("id", Value.vStr "x"), ("userId", Value.vStr "x")]] "x" "x").2
      _ (List.mem_singleton.mpr rfl) rfl
      (fun d' hd' _ => List.mem_singleton.mp hd')

/-! ## C6: shared-collection queries filter on the type discriminator -/

/-- **C6**: each collection-scoped query over the shared Issues
collection filters on the `type` discriminator: the issue lists return
only `type = "Issue"` documents, the comment lists only
`type = "Comment"` documents; in particular a Comment document carrying
the queried `projectId` never appears in a project's issue list. -/
theorem shared_collection_type_filter (c : List Doc) (pid iid : String) :
    (∀ d ∈ issuesGetAll c, d.get "type" = some (Value.vStr "Issue")) ∧
    (∀ d ∈ issuesGetAllForProject c pid,
      d.get "type" = some (Value.vStr "Issue")) ∧
    (∀ d ∈ commentsGetAll c, d.get "type" = some (Value.vStr "Comment")) ∧
    (∀ d ∈ getAllCommentsForIssue c pid iid,
      d.get "type" = some (Value.vStr "Comment")) ∧
    (∀ d ∈ c, d.get "type" = some (Value.vStr "Comment") →
      d ∉ issuesGetAllForProject c pid) := by
  refine ⟨?_, ?_, ?_, ?_, ?_⟩
  · intro d hd
    have h := ((mem_sort_filter _ _ _ _).mp hd).2
    simpa using h
  · intro d hd
    have h := ((mem_sort_filter _ _ _ _).mp hd).2
    simp only [Bool.and_eq_true, beq_iff_eq] at h
    exact h.2
  · intro d hd
    have h := ((mem_sort_filter _ _ _ _).mp hd).2
    simpa using h
  · intro d hd
    have h := ((mem_sort_filter _ _ _ _).mp hd).2
    simp only [Bool.and_eq_true, beq_iff_eq] at h
    exact h.2
  · intro d _ hc hd
    have h := ((mem_sort_filter _ _ _ _).mp hd).2
    simp only [Bool.and_eq_true, beq_iff_eq] at h
    exact absurd (hc.symm.trans h.2) (by simp)

/-- Witness for C6 at a concrete input: a Comment under project `p` is
excluded from the issue list of project `p`. -/
theorem shared_collection_type_filter_witness :
    [("id", Value.vStr "c1"), ("projectId", Value.vStr "p"),
      ("type", Value.vStr "Comment")] ∉
      issuesGetAllForProject
        [[("id", Value.vStr "c1"), ("projectId", Value.vStr "p"),
          ("type", Value.vStr "Comment")]] "p" :=
  (shared_collection_type_filter
    [[("id", Value.vStr "c1"), ("projectId", Value.vStr "p"),
      ("type", Value.vStr "Comment")]] "p" "i").2.2.2.2
    _ (List.mem_singleton.mpr rfl) rfl

/-! ## C5: listing an issue's comments -/

/-- **C5**: listing the comments of issue `iid` in project `pid` returns
exactly the stored documents with `type = "Comment"` and matching
`projectId`/`issueId` (so no Issue documents and no other issue's
comments), ordered by `createdOn` ascending. -/
theorem comments_list_spec (c : List Doc) (pid iid : String) :
    (∀ d, d ∈ getAllCommentsForIssue c pid iid ↔
      d ∈ c ∧ d.get "type" = some (Value.vStr "Comment") ∧
      d.get "projectId" = some (Value.vStr pid) ∧
      d.get "issueId" = some (Value.vStr iid)) ∧
    List.Sorted createdAsc (getAllCommentsForIssue c pid iid) := by
  constructor
  · intro d
    unfold getAllCommentsForIssue
    rw [mem_sort_filter]
    simp only [Bool.and_eq_true, beq_iff_eq]
    constructor
    · rintro ⟨hm, ⟨hp, hi⟩, ht⟩
      exact ⟨hm, ht, hp, hi⟩
    · rintro ⟨hm, ht, hp, hi⟩
      exact ⟨hm, ⟨hp, hi⟩, ht⟩
  · exact List.sorted_insertionSort createdAsc _

/-- Witness for C5 at a concrete input: the only stored comment of the
issue is returned. -/
theorem comments_list_spec_witness :
    [("id", Value.vStr "c1"), ("projectId", Value.vStr "p"),
      ("issueId", Value.vStr "i"), ("type", Value.vStr "Comment")] ∈
      getAllCommentsForIssue
        [[("id", Value.vStr "c1"), ("projectId", Value.vStr "p"),
          ("issueId", Value.vStr "i"), ("type", Value.vStr "Comment")]]
        "p" "i" :=
  ((comments_list_spec
    [[("id", Value.vStr "c1"), ("projectId", Value.vStr "p"),
      ("issueId", Value.vStr "i"), ("type", Value.vStr "Comment")]]
    "p" "i").1 _).mpr ⟨List.mem_singleton.mpr rfl, rfl, rfl, rfl⟩

/-- After erasing the only document satisfying `p`, no document
satisfies `p` any more. -/
theorem find?_eraseP_of_unique {α : Type} (p : α → Bool) (l : List α)
    (h : (l.filter p).length ≤ 1) : (l.eraseP p).find? p = none := by
  induction l with
  | nil => rfl
  | cons a t ih =>
    by_cases hp : p a
    · rw [List.eraseP_cons_of_pos hp]
      rw [List.filter_cons_of_pos hp, List.length_cons,
        Nat.add_le_add_iff_right, Nat.le_zero, List.length_eq_zero] at h
      rw [List.find?_eq_none]
      intro x hx hpx
      have hxf : x ∈ t.filter p := List.mem_filter.mpr ⟨hx, hpx⟩
      rw [h] at hxf
      exact List.not_mem_nil x hxf
    · rw [List.eraseP_cons_of_neg hp, List.find?_cons_of_neg _ hp]
      apply ih
      rwa [List.filter_cons_of_neg hp] at h

/-- An insert whose `(id, partitionKey)` point is fresh succeeds and
appends the item. -/
theorem addItemToContainer_fresh (pkPath : String) (c : List Doc)
    (item : Doc)
    (h : ∀ d ∈ c,
      ¬(d.get "id" = item.get "id" ∧ d.get pkPath = item.get pkPath)) :
    addItemToContainer pkPath c item = Except.ok (c ++ [item], item) := by
  unfold addItemToContainer
  have hcond : ¬(c.any (fun d =>
      d.get "id" == item.get "id" && d.get pkPath == item.get pkPath)
        = true) := by
    rw [List.any_eq_true]
    rintro ⟨x, hx, hfx⟩
    simp only [Bool.and_eq_true, beq_iff_eq] at hfx
    exact h x hx ⟨hfx.1, hfx.2⟩
  rw [if_neg hcond]

/-- `Issues.add` on an item with fresh identity fields succeeds and
appends the stamped document. -/
theorem issuesAdd_fresh (issues : List Doc) (ni : Doc) (pid iid : String)
    (hp : ni.getStr "projectId" = some pid)
    (hi : ni.getStr "issueId" = some iid)
    (hid : ni.get "id" = some (Value.vStr iid))
    (hfresh : ∀ d ∈ issues,
      ¬(d.get "id" = some (Value.vStr iid) ∧
        d.get "_partitionKey" = some (Value.vStr (pid ++ ";" ++ iid)))) :
    ∃ stamped,
      issuesAdd issues ni = Except.ok (issues ++ [stamped], stamped) ∧
      stamped.get "type" = some (Value.vStr "Issue") ∧
      stamped.get "id" = some (Value.vStr iid) ∧
      stamped.get "_partitionKey"
        = some (Value.vStr (pid ++ ";" ++ iid)) := by
  unfold issuesAdd
  have hsid :
      ((ni.set "_partitionKey"
        (Value.vStr (ni.getStrD "projectId" ++ ";" ++
          ni.getStrD "issueId"))).set "type" (Value.vStr "Issue")).get "id"
        = some (Value.vStr iid) := by
    simp [Doc.get_set_ne, hid]
  have hspk :
      ((ni.set "_partitionKey"
        (Value.vStr (ni.getStrD "projectId" ++ ";" ++
          ni.getStrD "issueId"))).set "type"
          (Value.vStr "Issue")).get "_partitionKey"
        = some (Value.vStr (pid ++ ";" ++ iid)) := by
    simp [Doc.get_set_ne, Doc.get_set_self, Doc.getStrD, hp, hi]
  refine ⟨_, addItemToContainer_fresh _ _ _ ?_, ?_, hsid, hspk⟩
  · intro d hd hconf
    rw [hsid, hspk] at hconf
    exact hfresh d hd hconf
  · exact Doc.get_set_self _ _ _

/-! ## C4: update is read-merge-full-replace -/

/-- **C4**: for an existing Issue or Project document and an update body
(whose keys are distinct, as JSON object keys are), the document written
by the update operation takes the body's value on every key the body
contains and the stored document's value on every other key, except the
freshly stamped `lastUpdatedOn`/`lastUpdatedBy`, which are set to the
current time and the requesting user. -/
theorem update_merge_semantics (issue project : Doc) (auth : AuthPayload)
    (now : Nat) (body : Doc) (k : String)
    (hnd : (Doc.keys body).Nodup)
    (h1 : k ≠ "lastUpdatedOn") (h2 : k ≠ "lastUpdatedBy") :
    ((k ∈ Doc.keys body →
      (issueUpdateDoc issue auth now body).get k = Doc.get body k) ∧
     (k ∉ Doc.keys body →
      (issueUpdateDoc issue auth now body).get k = issue.get k) ∧
     (issueUpdateDoc issue auth now body).get "lastUpdatedOn"
       = some (Value.vNat now) ∧
     (issueUpdateDoc issue auth now body).get "lastUpdatedBy"
       = some (Value.vObj (pickPairs auth ["userId", "email"]))) ∧
    ((k ∈ Doc.keys body →
      (projectUpdateDoc project auth now body).get k = Doc.get body k) ∧
     (k ∉ Doc.keys body →
      (projectUpdateDoc project auth now body).get k = project.get k) ∧
     (projectUpdateDoc project auth now body).get "lastUpdatedOn"
       = some (Value.vNat now) ∧
     (projectUpdateDoc project auth now body).get "lastUpdatedBy"
       = some (Value.vObj (pickPairs auth ["userId", "email"]))) := by
  unfold issueUpdateDoc projectUpdateDoc
  refine ⟨⟨?_, ?_, ?_, ?_⟩, ⟨?_, ?_, ?_, ?_⟩⟩
  · intro hk
    rw [Doc.get_set_ne _ _ _ _ h2, Doc.get_set_ne _ _ _ _ h1]
    exact mergeDoc_get_mem body issue k hnd hk
  · intro hk
    rw [Doc.get_set_ne _ _ _ _ h2, Doc.get_set_ne _ _ _ _ h1]
    exact mergeDoc_get_not_mem body issue k hk
  · rw [Doc.get_set_ne _ _ _ _ (by simp), Doc.get_set_self]
  · rw [Doc.get_set_self]
  · intro hk
    rw [Doc.get_set_ne _ _ _ _ h2, Doc.get_set_ne _ _ _ _ h1]
    exact mergeDoc_get_mem body project k hnd hk
  · intro hk
    rw [Doc.get_set_ne _ _ _ _ h2, Doc.get_set_ne _ _ _ _ h1]
    exact mergeDoc_get_not_mem body project k hk
  · rw [Doc.get_set_ne _ _ _ _ (by simp), Doc.get_set_self]
  · rw [Doc.get_set_self]

/-- Witness for C4 at a concrete input: updating the `title` of a stored
document takes the body's title and keeps the untouched `description`. -/
theorem update_merge_semantics_witness :
    (issueUpdateDoc
      [("title", Value.vStr "old"), ("description", Value.vStr "keep")]
      [("userId", "u")] 7 [("title", Value.vStr "new")]).get "title"
      = Doc.get [("title", Value.vStr "new")] "title" ∧
    (issueUpdateDoc
      [("title", Value.vStr "old"), ("description", Value.vStr "keep")]
      [("userId", "u")] 7 [("title", Value.vStr "new")]).get "description"
      = Doc.get
        [("title", Value.vStr "old"), ("description", Value.vStr "keep")]
        "description" := by
  have h := update_merge_semantics
    [("title", Value.vStr "old"), ("description", Value.vStr "keep")]
    [] [("userId", "u")] 7 [("title", Value.vStr "new")]
  refine ⟨(h "title" (by simp [Doc.keys]) (by simp) (by simp)).1.1
    (by simp [Doc.keys]), ?_⟩
  exact (h "description" (by simp [Doc.keys]) (by simp) (by simp)).1.2.1
    (by simp [Doc.keys])

/-! ## C2: duplicate registration is refused -/

/-- **C2**: when a stored User already holds email `e`, a registration
request with email `e` is refused with a 400 result and the store is
unchanged (no insert is attempted); in particular, when exactly one User
with that email existed before, exactly one exists afterwards. -/
theorem register_duplicate_email (store : Store) (e : String)
    (uid gn fn ph : String) (now : Nat) (tok texp : String)
    (h : ∃ u ∈ store.users, u.get "email" = some (Value.vStr e)) :
    (registerRoute store uid gn fn e ph now tok texp).1.status = 400 ∧
    (registerRoute store uid gn fn e ph now tok texp).2 = store ∧
    (countUsersWithEmail store.users e = 1 →
      countUsersWithEmail
        (registerRoute store uid gn fn e ph now tok texp).2.users e = 1) := by
  obtain ⟨u, hu, he⟩ := h
  have hfilter : u ∈ store.users.filter
      (fun d => d.get "email" == some (Value.vStr e)) :=
    List.mem_filter.mpr ⟨hu, by simp [he]⟩
  cases hq : usersGetByEmail store.users e with
  | none =>
    exfalso
    unfold usersGetByEmail getUserByEmailVal at hq
    rw [List.head?_eq_none_iff] at hq
    rw [hq] at hfilter
    exact List.not_mem_nil u hfilter
  | some u' =>
    unfold registerRoute
    rw [hq]
    exact ⟨rfl, rfl, fun hc => hc⟩

/-- Witness for C2 at a concrete input. -/
theorem register_duplicate_email_witness :
    (registerRoute
      ⟨[[("id", Value.vStr "u1"), ("userId", Value.vStr "u1"),
         ("email", Value.vStr "a@x")]], [], []⟩
      "u2" "G" "F" "a@x" "H" 5 "T" "1h").1.status = 400 ∧
    (registerRoute
      ⟨[[("id", Value.vStr "u1"), ("userId", Value.vStr "u1"),
         ("email", Value.vStr "a@x")]], [], []⟩
      "u2" "G" "F" "a@x" "H" 5 "T" "1h").2 =
      ⟨[[("id", Value.vStr "u1"), ("userId", Value.vStr "u1"),
         ("email", Value.vStr "a@x")]], [], []⟩ ∧
    (countUsersWithEmail
      [[("id", Value.vStr "u1"), ("userId", Value.vStr "u1"),
        ("email", Value.vStr "a@x")]] "a@x" = 1 →
      countUsersWithEmail
        (registerRoute
          ⟨[[("id", Value.vStr "u1"), ("userId", Value.vStr "u1"),
             ("email", Value.vStr "a@x")]], [], []⟩
          "u2" "G" "F" "a@x" "H" 5 "T" "1h").2.users "a@x" = 1) :=
  register_duplicate_email
    ⟨[[("id", Value.vStr "u1"), ("userId", Value.vStr "u1"),
       ("email", Value.vStr "a@x")]], [], []⟩
    "a@x" "u2" "G" "F" "H" 5 "T" "1h"
    ⟨[("id", Value.vStr "u1"), ("userId", Value.vStr "u1"),
      ("email", Value.vStr "a@x")], List.mem_singleton.mpr rfl, rfl⟩

/-! ## C3: issue creation requires the parent project -/

/-- **C3**: creating an Issue under a `projectId` with no stored Project
(as after that Project was deleted — the third conjunct shows deletion
empties the point) yields a 404 result and leaves the store unchanged;
when the parent Project exists (and the generated issue id is fresh), the
create succeeds with status 200 and appends exactly one Issue document,
leaving the other collections unchanged. -/
theorem issue_create_requires_project (store : Store) (auth : AuthPayload)
    (pid iid : String) (now : Nat) (body : Doc) :
    (projectsGetById store.projects pid = none →
      (issueNewRoute store auth pid iid now body).1.status = 404 ∧
      (issueNewRoute store auth pid iid now body).2 = store) ∧
    (∀ p, projectsGetById store.projects pid = some p →
      (∀ d ∈ store.issues,
        ¬(d.get "id" = some (Value.vStr iid) ∧
          d.get "_partitionKey" = some (Value.vStr (pid ++ ";" ++ iid)))) →
      (issueNewRoute store auth pid iid now body).1.status = 200 ∧
      ∃ newDoc,
        (issueNewRoute store auth pid iid now body).2.issues
          = store.issues ++ [newDoc] ∧
        newDoc.get "type" = some (Value.vStr "Issue") ∧
        (issueNewRoute store auth pid iid now body).2.projects
          = store.projects ∧
        (issueNewRoute store auth pid iid now body).2.users
          = store.users) ∧
    ((store.projects.filter (matchesPoint "projectId" pid pid)).length ≤ 1 →
      ∀ p, projectsGetById store.projects pid = some p →
      projectsGetById (projectDeleteRoute store pid).2.projects pid
        = none) := by
  refine ⟨?_, ?_, ?_⟩
  · intro h
    unfold issueNewRoute
    rw [h]
    exact ⟨rfl, rfl⟩
  · intro p hp hfresh
    have hni :
        ∃ stamped,
          issuesAdd store.issues
            ((((((body.set "id" (Value.vStr iid)).set
              "issueId" (Value.vStr iid)).set
              "projectId" (Value.vStr pid)).set
              "type" (Value.vStr "Issue")).set
              "createdOn" (Value.vNat now)).set
              "createdBy" (Value.vObj (pickPairs auth ["userId", "email"])))
            = Except.ok (store.issues ++ [stamped], stamped) ∧
          stamped.get "type" = some (Value.vStr "Issue") ∧
          stamped.get "id" = some (Value.vStr iid) ∧
          stamped.get "_partitionKey"
            = some (Value.vStr (pid ++ ";" ++ iid)) := by
      apply issuesAdd_fresh
      · simp [Doc.getStr, Doc.get_set_ne, Doc.get_set_self]
      · simp [Doc.getStr, Doc.get_set_ne, Doc.get_set_self]
      · simp [Doc.get_set_ne, Doc.get_set_self]
      · exact hfresh
    obtain ⟨stamped, hadd, htype, _, _⟩ := hni
    unfold issueNewRoute
    rw [hp]
    dsimp only
    rw [hadd]
    exact ⟨rfl, stamped, rfl, htype, rfl, rfl⟩
  · intro hcount p hp
    have hpmem := List.mem_of_find?_eq_some hp
    have hpmatch := List.find?_some hp
    have hany : store.projects.any (matchesPoint "projectId" pid pid)
        = true :=
      List.any_eq_true.mpr ⟨p, hpmem, hpmatch⟩
    have hremove : projectsRemove store.projects pid
        = Except.ok
          (store.projects.eraseP (matchesPoint "projectId" pid pid)) := by
      unfold projectsRemove removeItemFromContainer
      rw [if_pos hany]
    unfold projectDeleteRoute
    rw [hp]
    dsimp only
    rw [hremove]
    exact find?_eraseP_of_unique _ _ hcount

/-- Witness for C3 at concrete inputs: creating under a missing project
404s; creating under an existing project appends one Issue; deleting the
project empties its point. -/
theorem issue_create_requires_project_witness :
    ((issueNewRoute ⟨[], [], []⟩ [("userId", "u")] "p" "i" 3
        [("title", Value.vStr "t")]).1.status = 404 ∧
      (issueNewRoute ⟨[], [], []⟩ [("userId", "u")] "p" "i" 3
        [("title", Value.vStr "t")]).2 = ⟨[], [], []⟩) ∧
    ((issueNewRoute
        ⟨[], [[("id", Value.vStr "p"), ("projectId", Value.vStr "p")]], []⟩
        [("userId", "u")] "p" "i" 3
        [("title", Value.vStr "t")]).1.status = 200) ∧
    (projectsGetById
      (projectDeleteRoute
        ⟨[], [[("id", Value.vStr "p"), ("projectId", Value.vStr "p")]], []⟩
        "p").2.projects "p" = none) := by
  refine ⟨?_, ?_, ?_⟩
  · exact (issue_create_requires_project ⟨[], [], []⟩ [("userId", "u")]
      "p" "i" 3 [("title", Value.vStr "t")]).1 rfl
  · exact ((issue_create_requires_project
      ⟨[], [[("id", Value.vStr "p"), ("projectId", Value.vStr "p")]], []⟩
      [("userId", "u")] "p" "i" 3 [("title", Value.vStr "t")]).2.1
      [("id", Value.vStr "p"), ("projectId", Value.vStr "p")] rfl
      (by intro d hd; cases hd)).1
  · exact (issue_create_requires_project
      ⟨[], [[("id", Value.vStr "p"), ("projectId", Value.vStr "p")]], []⟩
      [("userId", "u")] "p" "i" 3 [("title", Value.vStr "t")]).2.2
      (by decide)
      [("id", Value.vStr "p"), ("projectId", Value.vStr "p")] rfl

/-- Every key of a `_.pick` result comes from the requested key list. -/
theorem pickDoc_keys_subset (d : Doc) (ks : List String) :
    ∀ k ∈ Doc.keys (pickDoc d ks), k ∈ ks := by
  intro k hk
  unfold pickDoc Doc.keys at hk
  rw [List.mem_map] at hk
  obtain ⟨⟨k', v⟩, hkv, hfst⟩ := hk
  rw [List.mem_filterMap] at hkv
  obtain ⟨k0, hk0, hmap⟩ := hkv
  cases hg : d.get k0 with
  | none => rw [hg] at hmap; cases hmap
  | some v0 =>
    rw [hg] at hmap
    simp only [Option.map_some', Option.some.injEq, Prod.mk.injEq] at hmap
    rw [← hfst, ← hmap.1]
    exact hk0

/-- A `_.pick` result holds no key outside the requested key list. -/
theorem pickDoc_get_not_mem (d : Doc) (ks : List String) (k : String)
    (h : k ∉ ks) : (pickDoc d ks).get k = none := by
  have hfind : (pickDoc d ks).find? (fun p => p.1 == k) = none := by
    rw [List.find?_eq_none]
    intro x hx hbeq
    rw [beq_iff_eq] at hbeq
    have hx1 : x.1 ∈ ks :=
      pickDoc_keys_subset d ks x.1 (List.mem_map.mpr ⟨x, hx, rfl⟩)
    rw [hbeq] at hx1
    exact h hx1
  unfold Doc.get
  rw [hfind]
  rfl

/-! ## C9: the /auth/me response never exposes the password hash -/

/-- **C9**: in both iterations of `GET /auth/me`, the success response
body is a `_.pick` of the stored User document: its keys come only from
the documented field list, and in particular `passwordHash` is never
present, whatever the stored document contains. -/
theorem auth_me_no_password_leak (users : List Doc) (userId : String)
    (user : Doc) (h : usersGetById users userId = some user) :
    ((authMeGetV1 users userId).body.get "passwordHash" = none ∧
     ∀ k ∈ Doc.keys (authMeGetV1 users userId).body,
       k ∈ ["userId", "email", "givenName", "familyName"]) ∧
    ((authMeGetV2 users userId).body.get "passwordHash" = none ∧
     ∀ k ∈ Doc.keys (authMeGetV2 users userId).body,
       k ∈ ["userId", "email", "givenName", "familyName",
            "registeredOn", "lastLoginOn"]) := by
  unfold authMeGetV1 authMeGetV2
  rw [h]
  dsimp only
  exact ⟨⟨pickDoc_get_not_mem _ _ _ (by simp), pickDoc_keys_subset _ _⟩,
    ⟨pickDoc_get_not_mem _ _ _ (by simp), pickDoc_keys_subset _ _⟩⟩

/-- Witness for C9 at a concrete input: a stored document carrying a
`passwordHash` field produces responses without it. -/
theorem auth_me_no_password_leak_witness :
    (authMeGetV1
      [[("id", Value.vStr "u1"), ("userId", Value.vStr "u1"),
        ("email", Value.vStr "a@x"), ("passwordHash", Value.vStr "H")]]
      "u1").body.get "passwordHash" = none ∧
    (authMeGetV2
      [[("id", Value.vStr "u1"), ("userId", Value.vStr "u1"),
        ("email", Value.vStr "a@x"), ("passwordHash", Value.vStr "H")]]
      "u1").body.get "passwordHash" = none :=
  ⟨(auth_me_no_password_leak
      [[("id", Value.vStr "u1"), ("userId", Value.vStr "u1"),
        ("email", Value.vStr "a@x"), ("passwordHash", Value.vStr "H")]]
      "u1" _ rfl).1.1,
   (auth_me_no_password_leak
      [[("id", Value.vStr "u1"), ("userId", Value.vStr "u1"),
        ("email", Value.vStr "a@x"), ("passwordHash", Value.vStr "H")]]
      "u1" _ rfl).2.1⟩

/-! ## C10: comment-create response echoes the issue id -/

/-- **C10**: a successful comment creation responds with top-level
`id = issueId` (the parent's id, not the generated comment id); the
generated comment id appears as the `id` of the echoed resource, so
whenever the two ids differ the response's `id` differs from the
resource's `id`. -/
theorem comment_create_response_id (store : Store) (auth : AuthPayload)
    (pid iid cid : String) (now : Nat) (body : Doc)
    (resp : HttpResponse) (store' : Store) (parent : Doc)
    (hfound : issuesGetById store.issues pid iid = some parent)
    (hroute : commentNewRoute store auth pid iid cid now body
      = (resp, store'))
    (hok : resp.status = 200) :
    resp.body.get "id" = some (Value.vStr iid) ∧
    ∀ res, resp.resource = some res →
      res.get "id" = some (Value.vStr cid) ∧
      (cid ≠ iid → resp.body.get "id" ≠ res.get "id") := by
  unfold commentNewRoute at hroute
  rw [hfound] at hroute
  dsimp only at hroute
  cases hadd : commentsAdd store.issues
      ((((((body.set "id" (Value.vStr cid)).set
        "issueId" (Value.vStr iid)).set
        "projectId" (Value.vStr pid)).set
        "type" (Value.vStr "Comment")).set
        "createdOn" (Value.vNat now)).set
        "createdBy" (Value.vObj (pickPairs auth ["userId", "email"]))) with
  | error e =>
    rw [hadd] at hroute
    dsimp only at hroute
    injection hroute with h1 h2
    rw [← h1] at hok
    cases hok
  | ok p =>
    obtain ⟨issues', stored⟩ := p
    rw [hadd] at hroute
    dsimp only at hroute
    injection hroute with h1 h2
    obtain ⟨_, hstored⟩ := addItemToContainer_ok _ _ _ _ _ hadd
    subst hstored
    rw [← h1]
    constructor
    · simp [Doc.get_cons]
    · intro res hres
      simp only [Option.some.injEq] at hres
      subst hres
      constructor
      · simp [Doc.get_set_ne, Doc.get_set_self]
      · intro hne
        simp [Doc.get_cons, Doc.get_set_ne, Doc.get_set_self]
        intro heq
        exact hne (heq.symm)

/-- Witness for C10 at a concrete input. -/
theorem comment_create_response_id_witness :
    (commentNewRoute
      ⟨[], [],
       [[("id", Value.vStr "i"), ("issueId", Value.vStr "i"),
         ("projectId", Value.vStr "p"),
         ("_partitionKey", Value.vStr "p;i"),
         ("type", Value.vStr "Issue")]]⟩
      [("userId", "u")] "p" "i" "c" 9
      [("text", Value.vStr "hi")]).1.body.get "id"
      = some (Value.vStr "i") :=
  (comment_create_response_id
    ⟨[], [],
     [[("id", Value.vStr "i"), ("issueId", Value.vStr "i"),
       ("projectId", Value.vStr "p"),
       ("_partitionKey", Value.vStr "p;i"),
       ("type", Value.vStr "Issue")]]⟩
    [("userId", "u")] "p" "i" "c" 9 [("text", Value.vStr "hi")]
    _ _ _ rfl rfl rfl).1

/-- After replacing the stored document at a point with a body that
itself matches the point, the point read returns the body. -/
theorem find?_replacePoint (pkPath id pk : String) (body : Doc)
    (c : List Doc) (hmatch : matchesPoint pkPath id pk body = true)
    (hc : c.any (matchesPoint pkPath id pk) = true) :
    (replacePoint pkPath id pk body c).find? (matchesPoint pkPath id pk)
      = some body := by
  induction c with
  | nil => cases hc
  | cons d t ih =>
    by_cases hd : matchesPoint pkPath id pk d
    · unfold replacePoint
      rw [if_pos hd]
      exact List.find?_cons_of_pos _ hmatch
    · unfold replacePoint
      rw [if_neg hd, List.find?_cons_of_neg _ hd]
      apply ih
      rw [List.any_cons] at hc
      rcases Bool.or_eq_true_iff.mp hc with h | h
      · exact absurd h hd
      · exact h

/-! ## C8: self-update of the email address -/

/-- **C8 counterexample**: the stored user `u1` holds email `a@x`, the
request changes it to the fresh email `b@x` held by nobody — yet the
endpoint refuses with 400 (the `validBody(updateSchema)` gate: the
schema's `email` line is commented out) and the store is unchanged,
contradicting the claim that a non-conflicting email change is stored. -/
theorem authme_email_update_counterexample :
    (authMePutRoute
      [[("id", Value.vStr "u1"), ("userId", Value.vStr "u1"),
        ("email", Value.vStr "a@x")]]
      "u1" (fun s => s) [("email", Value.vStr "b@x")] "T" "1h").1.status
      = 400 ∧
    (authMePutRoute
      [[("id", Value.vStr "u1"), ("userId", Value.vStr "u1"),
        ("email", Value.vStr "a@x")]]
      "u1" (fun s => s) [("email", Value.vStr "b@x")] "T" "1h").2
      = [[("id", Value.vStr "u1"), ("userId", Value.vStr "u1"),
          ("email", Value.vStr "a@x")]] :=
  ⟨rfl, rfl⟩

/-- **C8 (amended)**: the handler's merge loop does re-check uniqueness
of a changed email against other users — refusing 400 when another user
(different `id`) holds the new value and otherwise storing it — but the
route's `updateSchema` omits `email`, so any request body containing an
`email` key is refused by validation with 400 before the handler runs and
the stored email never changes through the endpoint. -/
theorem authme_email_update_amended :
    (∀ (users : List Doc) (userId : String) (hashFn : String → String)
      (body : Doc) (tok texp : String),
      "email" ∈ Doc.keys body →
      (authMePutRoute users userId hashFn body tok texp).1.status = 400 ∧
      (authMePutRoute users userId hashFn body tok texp).2 = users) ∧
    (∀ (users : List Doc) (userId : String) (hashFn : String → String)
      (user : Doc) (v : Value) (other : Doc) (tok texp : String),
      usersGetById users userId = some user →
      some v ≠ user.get "email" →
      getUserByEmailVal users v = some other →
      ¬(other.get "id" = some (Value.vStr userId)) →
      (authMePutHandler users userId hashFn [("email", v)] tok
        texp).1.status = 400 ∧
      (authMePutHandler users userId hashFn [("email", v)] tok texp).2
        = users) ∧
    (∀ (users : List Doc) (userId : String) (hashFn : String → String)
      (user : Doc) (v : Value) (tok texp : String),
      usersGetById users userId = some user →
      some v ≠ user.get "email" →
      getUserByEmailVal users v = none →
      (authMePutHandler users userId hashFn [("email", v)] tok
        texp).1.status = 200 ∧
      usersGetById
        (authMePutHandler users userId hashFn [("email", v)] tok texp).2
        userId = some (user.set "email" v)) := by
  refine ⟨?_, ?_, ?_⟩
  · intro users userId hashFn body tok texp hmem
    have hA : (Doc.keys body).all
        (fun k => updateSchemaKeys.contains k) = false := by
      cases hA' : (Doc.keys body).all
          (fun k => updateSchemaKeys.contains k) with
      | false => rfl
      | true =>
        have := List.all_eq_true.mp hA' "email" hmem
        simp [updateSchemaKeys] at this
    have hv : validUpdateBody body = false := by
      unfold validUpdateBody
      rw [hA, Bool.false_and]
    unfold authMePutRoute
    rw [hv]
    exact ⟨rfl, rfl⟩
  · intro users userId hashFn user v other tok texp hfound hne hother hid
    have happ : applyUserUpdate users userId hashFn user [("email", v)]
        = Except.error
          { status := 400,
            body := [("message", Value.vStr "Email already in use."),
                     ("email", v)] } := by
      unfold applyUserUpdate
      rw [if_neg (by decide), if_pos (by decide), if_pos hne, hother]
      dsimp only
      rw [if_pos hid]
    unfold authMePutHandler
    rw [hfound]
    dsimp only
    rw [happ]
    exact ⟨rfl, rfl⟩
  · intro users userId hashFn user v tok texp hfound hne hnone
    have happ : applyUserUpdate users userId hashFn user [("email", v)]
        = Except.ok (user.set "email" v) := by
      unfold applyUserUpdate
      rw [if_neg (by decide), if_pos (by decide), if_pos hne, hnone]
      dsimp only
      unfold applyUserUpdate
      rfl
    have hmem := List.mem_of_find?_eq_some hfound
    have hmatch := List.find?_some hfound
    have hany : users.any (matchesPoint "userId" userId userId) = true :=
      List.any_eq_true.mpr ⟨user, hmem, hmatch⟩
    have hrep : usersReplace users userId (user.set "email" v)
        = Except.ok
          (replacePoint "userId" userId userId (user.set "email" v) users,
           user.set "email" v) := by
      unfold usersReplace replaceItemInContainer
      rw [if_pos hany]
    have hmatch' :
        matchesPoint "userId" userId userId (user.set "email" v)
          = true := by
      simp only [matchesPoint, Bool.and_eq_true, beq_iff_eq] at hmatch ⊢
      rw [Doc.get_set_ne _ _ _ _ (by simp),
        Doc.get_set_ne _ _ _ _ (by simp)]
      exact hmatch
    unfold authMePutHandler
    rw [hfound]
    dsimp only
    rw [happ]
    dsimp only
    rw [hrep]
    exact ⟨rfl, find?_replacePoint _ _ _ _ _ hmatch' hany⟩

/-- Witness for the amended C8 at concrete inputs: a body holding an
`email` key is refused by validation; at the handler level a conflicting
email change is refused with 400 and a fresh one is stored. -/
theorem authme_email_update_amended_witness :
    (authMePutRoute [] "u1" (fun s => s)
      [("email", Value.vStr "x@x")] "T" "1h").1.status = 400 ∧
    (authMePutHandler
      [[("id", Value.vStr "u1"), ("userId", Value.vStr "u1"),
        ("email", Value.vStr "a@x")],
       [("id", Value.vStr "u2"), ("userId", Value.vStr "u2"),
        ("email", Value.vStr "b@x")]]
      "u1" (fun s => s) [("email", Value.vStr "b@x")] "T" "1h").1.status
      = 400 ∧
    (authMePutHandler
      [[("id", Value.vStr "u1"), ("userId", Value.vStr "u1"),
        ("email", Value.vStr "a@x")]]
      "u1" (fun s => s) [("email", Value.vStr "c@x")] "T" "1h").1.status
      = 200 :=
  ⟨(authme_email_update_amended.1 [] "u1" (fun s => s)
      [("email", Value.vStr "x@x")] "T" "1h"
      (List.mem_singleton.mpr rfl)).1,
   (authme_email_update_amended.2.1
      [[("id", Value.vStr "u1"), ("userId", Value.vStr "u1"),
        ("email", Value.vStr "a@x")],
       [("id", Value.vStr "u2"), ("userId", Value.vStr "u2"),
        ("email", Value.vStr "b@x")]]
      "u1" (fun s => s) _ (Value.vStr "b@x") _ "T" "1h"
      rfl (by decide) rfl (by decide)).1,
   (authme_email_update_amended.2.2
      [[("id", Value.vStr "u1"), ("userId", Value.vStr "u1"),
        ("email", Value.vStr "a@x")]]
      "u1" (fun s => s) _ (Value.vStr "c@x") "T" "1h"
      rfl (by decide) rfl).1⟩

/-- Witness for C1 at a concrete input. -/
theorem partitionKey_scheme_witness :
    Doc.get [("projectId", Value.vStr "p"), ("issueId", Value.vStr "i"),
      ("_partitionKey", Value.vStr "p;i"),
      ("type", Value.vStr "Issue")] "_partitionKey"
      = some (Value.vStr ("p" ++ ";" ++ "i")) :=
  ((partitionKey_scheme []
    [("projectId", Value.vStr "p"), ("issueId", Value.vStr "i")]
    "p" "i" rfl rfl).1 _ _ rfl).2

end IssueTracker
